import Mathlib

/-!
Verification of the DID:ION creation / Bitcoin-anchoring pipeline
(`scripts/2-create-did.js`, `scripts/3-anchor-bitcoin.js`,
`scripts/3-simple-anchor.js`).

JavaScript strings are embedded either as Lean `String` (where only
equality and construction matter) or as `List Char` (where structural
reasoning on prefixes, substrings and lexicographic order is needed).
JavaScript's `split`, `includes`, `startsWith`, `endsWith` and the
default `Array.prototype.sort` comparator are modelled by the explicit
character-list functions below.  Fallible network / filesystem calls are
modelled as `Except`-valued inputs; `try/catch` becomes a `match` on
that `Except`.
-/

/-- Membership of `needle` as a contiguous substring of `hay`
(JavaScript `hay.includes(needle)`). -/
def containsSub (needle : List Char) : List Char → Bool
  | [] => needle.isEmpty
  | c :: t => needle.isPrefixOf (c :: t) || containsSub needle t

/-- JavaScript `hay.includes(needle)` on `String`s. -/
def strContains (hay needle : String) : Bool :=
  containsSub needle.toList hay.toList

/-! ## 2-create-did.js — `generateLongFormDID` (lines 186-212)

The source derives the short form by
`this.shortFormDid = this.longFormDid.split('?')[0];`.
The first element of a split is the longest prefix free of the
separator, so the derivation is embedded as a `takeWhile`. -/

/-- Embeds `longFormDid.split('?')[0]` from `generateLongFormDID`. -/
def deriveShortForm (longForm : List Char) : List Char :=
  longForm.takeWhile (fun c => c != '?')

/-- Number of occurrences of the separator in a string
(used to state the "exactly one `?`" part of the spec). -/
def countQ : List Char → Nat
  | [] => 0
  | c :: t => (if c = '?' then 1 else 0) + countQ t

theorem mem_of_countQ_ne_zero : ∀ l : List Char, countQ l ≠ 0 → '?' ∈ l := by
  intro l h
  induction l with
  | nil => exact absurd rfl h
  | cons c t ih =>
    by_cases hc : c = '?'
    · subst hc; exact List.mem_cons_self _ _
    · have : countQ t ≠ 0 := by
        simpa [countQ, hc] using h
      exact List.mem_cons_of_mem _ (ih this)

theorem takeWhile_idem (p : Char → Bool) :
    ∀ l : List Char, (l.takeWhile p).takeWhile p = l.takeWhile p := by
  intro l
  induction l with
  | nil => rfl
  | cons c t ih =>
    cases hc : p c with
    | false => simp [List.takeWhile_cons, hc]
    | true => simp [List.takeWhile_cons, hc, ih]

theorem takeWhile_length_lt_of_bad_mem (p : Char → Bool) (a : Char) (hp : p a = false) :
    ∀ l : List Char, a ∈ l → (l.takeWhile p).length < l.length := by
  intro l h
  induction l with
  | nil => cases h
  | cons c t ih =>
    cases hc : p c with
    | false => simp [List.takeWhile_cons, hc]
    | true =>
      have hne : a ≠ c := fun he => by rw [he] at hp; rw [hp] at hc; cases hc
      have ht : a ∈ t := by
        cases h with
        | head => exact absurd rfl hne
        | tail _ h2 => exact h2
      simpa [List.takeWhile_cons, hc] using Nat.succ_lt_succ (ih ht)

/-- C1: the short form produced by `generateLongFormDID` is always the
prefix of the long form up to (not including) the first `?`
(`shortForm ++ rest = longForm` with `rest` the remainder from the first
`?` on), the derivation is idempotent, and — provided the long form
contains exactly one `?` and does not begin with `?` — the short form is
a strict non-empty prefix of the long form. -/
theorem C1_shortForm_derivation : ∀ longForm : List Char,
    deriveShortForm longForm ++ longForm.dropWhile (fun c => c != '?') = longForm ∧
    deriveShortForm (deriveShortForm longForm) = deriveShortForm longForm ∧
    (countQ longForm = 1 → longForm.head? ≠ some '?' →
      deriveShortForm longForm ≠ [] ∧
      (deriveShortForm longForm).length < longForm.length) := by
  intro longForm
  refine ⟨List.takeWhile_append_dropWhile _ _, takeWhile_idem _ longForm, ?_⟩
  intro hcount hhead
  have hmem : '?' ∈ longForm := mem_of_countQ_ne_zero longForm (by omega)
  have hlt : (deriveShortForm longForm).length < longForm.length :=
    takeWhile_length_lt_of_bad_mem _ '?' (by decide) longForm hmem
  refine ⟨?_, hlt⟩
  cases longForm with
  | nil => cases hmem
  | cons c t =>
    have hc : c ≠ '?' := fun he => hhead (by rw [he]; rfl)
    have hcb : (c != '?') = true := by simpa using hc
    simp [deriveShortForm, List.takeWhile_cons, hcb]

/-- Witness for `C1_shortForm_derivation` at a long form holding exactly
one `?`: the derived short form is a strict non-empty prefix. -/
theorem C1_shortForm_derivation_witness :
    deriveShortForm ("did:ion:abc?x=1".toList) ≠ [] ∧
    (deriveShortForm ("did:ion:abc?x=1".toList)).length < ("did:ion:abc?x=1".toList).length :=
  (C1_shortForm_derivation ("did:ion:abc?x=1".toList)).2.2 (by decide) (by decide)

/-- C1 counterexample: a run of `generateLongFormDID` in which `getURI`
returns a long form with no `?` at all succeeds, yet the short form then
equals the whole long form — not a strict prefix — and the long form
does not contain exactly one `?`.  The code places no constraint on the
URI shape, so the claim fails as stated. -/
theorem C1_counterexample :
    ¬ ((deriveShortForm ("did:ion:abc".toList)).length < ("did:ion:abc".toList).length ∧
       countQ ("did:ion:abc".toList) = 1) := by
  decide

/-! ## 2-create-did.js — `validateWalletAddresses` (lines 50-85)

The source walks the three required addresses in a fixed order, logging
a "Missing ... address" line per absent one (colour codes and emoji of
the console output elided) and clearing `allValid`; afterwards it throws
a single `Error` with a fixed message when any address was absent, or
logs a success line and returns `true`.  JavaScript falsiness of an
`undefined` or empty env variable is modelled as the empty string.
The result is the pair (console lines, outcome). -/

def validateWalletAddresses (btc eth sol : String) : List String × Except String Bool :=
  let btcLines : List String :=
    if btc = "" then ["Missing Bitcoin Testnet address"]
    else ["Bitcoin Testnet: " ++ btc] ++
      (if btc.startsWith "tb1" then [] else ["Warning: BTC address format unusual"])
  let ethLines : List String :=
    if eth = "" then ["Missing Ethereum Sepolia address"]
    else ["Ethereum Sepolia: " ++ eth] ++
      (if eth.startsWith "0x" then [] else ["Warning: ETH address format unusual"])
  let solLines : List String :=
    if sol = "" then ["Missing Solana Devnet address"]
    else ["Solana Devnet: " ++ sol]
  let logs := btcLines ++ ethLines ++ solLines
  if btc = "" ∨ eth = "" ∨ sol = "" then
    (logs, Except.error "Missing required wallet addresses. Run wallet extraction first.")
  else
    (logs ++ ["All wallet addresses validated"], Except.ok true)

/-- C2 (amended): for each absent address the validator logs a line
naming that network — all of them, not just the first — and then fails
with a single error whose message is the fixed string
"Missing required wallet addresses. Run wallet extraction first."
(which itself names no network); when all three addresses are non-empty
it returns `true` without failing, format mismatches contributing
warning lines only. -/
theorem C2_validate_missing : ∀ btc eth sol : String,
    (btc = "" → "Missing Bitcoin Testnet address" ∈ (validateWalletAddresses btc eth sol).1) ∧
    (eth = "" → "Missing Ethereum Sepolia address" ∈ (validateWalletAddresses btc eth sol).1) ∧
    (sol = "" → "Missing Solana Devnet address" ∈ (validateWalletAddresses btc eth sol).1) ∧
    ((btc = "" ∨ eth = "" ∨ sol = "") →
      (validateWalletAddresses btc eth sol).2 =
        Except.error "Missing required wallet addresses. Run wallet extraction first.") ∧
    (btc ≠ "" → eth ≠ "" → sol ≠ "" →
      (validateWalletAddresses btc eth sol).2 = Except.ok true) := by
  intro btc eth sol
  refine ⟨?_, ?_, ?_, ?_, ?_⟩
  · intro h
    by_cases he : eth = "" <;> by_cases hs : sol = "" <;>
      simp [validateWalletAddresses, h, he, hs]
  · intro h
    by_cases hb : btc = "" <;> by_cases hs : sol = "" <;>
      simp [validateWalletAddresses, h, hb, hs]
  · intro h
    by_cases hb : btc = "" <;> by_cases he : eth = "" <;>
      simp [validateWalletAddresses, h, hb, he]
  · intro h
    simp [validateWalletAddresses, h]
  · intro hb he hs
    simp [validateWalletAddresses, hb, he, hs]

/-- Witness for `C2_validate_missing`: with all three addresses absent,
the log names all three networks. -/
theorem C2_validate_missing_witness :
    "Missing Bitcoin Testnet address" ∈ (validateWalletAddresses "" "" "").1 ∧
    "Missing Ethereum Sepolia address" ∈ (validateWalletAddresses "" "" "").1 ∧
    "Missing Solana Devnet address" ∈ (validateWalletAddresses "" "" "").1 :=
  ⟨(C2_validate_missing "" "" "").1 rfl,
   (C2_validate_missing "" "" "").2.1 rfl,
   (C2_validate_missing "" "" "").2.2.1 rfl⟩

/-- C2 counterexample: with only the Bitcoin address absent the thrown
error carries the fixed message, and that message does not name the
missing network (it does not contain "Bitcoin"), refuting "a
ValidationError whose message names every missing network". -/
theorem C2_counterexample :
    (validateWalletAddresses "" "0xabc" "So1ana").2 =
      Except.error "Missing required wallet addresses. Run wallet extraction first." ∧
    strContains "Missing required wallet addresses. Run wallet extraction first." "Bitcoin"
      = false := by
  exact ⟨rfl, rfl⟩

/-! ## 2-create-did.js — `updateEnvFile` (344-396), `generateSummary`
(398-441), `main` (484-498)

`updateEnvFile` wraps its whole body in `try/catch`; the catch only
records `this.errors.envUpdate = error.message` and does not re-throw.
The fallible filesystem body is modelled as an injected `Except` input;
the per-run error collection `this.errors` as an association list keyed
by stage name. -/

def updateEnvFile (io : Except String Unit) (errors : List (String × String)) :
    List (String × String) :=
  match io with
  | Except.ok _ => errors
  | Except.error msg => errors ++ [("envUpdate", msg)]

/-- JavaScript truthiness of a possibly-absent string. -/
def jsTruthy : Option String → Bool
  | none => false
  | some s => s != ""

/-- Embeds `const success = errorCount === 0 && this.longFormDid;`
from `generateSummary` (truthiness of the resulting value). -/
def generateSummarySuccess (errors : List (String × String)) (longFormDid : Option String) :
    Bool :=
  decide (errors.length = 0) && jsTruthy longFormDid

/-- Embeds `process.exit(result.success ? 0 : 1)` from `main`. -/
def exitCode (success : Bool) : Nat :=
  if success then 0 else 1

/-- C10: `updateEnvFile` never raises — a failing filesystem body is
caught and recorded under the stage key `envUpdate` (a success leaves
the error collection unchanged) — yet any recorded error makes the
summary's success flag false, because success requires an error count of
exactly zero, and hence yields process exit status 1 even though the
long-form DID was already produced by the prior stages. -/
theorem C10_envUpdate_swallowed :
    ∀ (msg : String) (errors : List (String × String)) (longForm : String),
    updateEnvFile (Except.ok ()) errors = errors ∧
    updateEnvFile (Except.error msg) errors = errors ++ [("envUpdate", msg)] ∧
    generateSummarySuccess (updateEnvFile (Except.error msg) errors) (some longForm) = false ∧
    exitCode (generateSummarySuccess (updateEnvFile (Except.error msg) errors)
      (some longForm)) = 1 := by
  intro msg errors longForm
  have hlen : (updateEnvFile (Except.error msg) errors).length = errors.length + 1 := by
    simp [updateEnvFile]
  have hfalse : generateSummarySuccess (updateEnvFile (Except.error msg) errors)
      (some longForm) = false := by
    simp [generateSummarySuccess, hlen]
  exact ⟨rfl, rfl, hfalse, by simp [exitCode, hfalse]⟩

/-! ## 3-anchor-bitcoin.js — `submitToIONNode` (lines 217-299)

Three tiers tried strictly in sequence: the ion-tools `anchor` call, a
raw HTTP POST to the solution endpoint, and a locally synthesised
acknowledgment.  The two network tiers are injected as `Except` values
(`Except.error` standing for a thrown/rejected call, a non-2xx response
included); the degraded tier is the literal object built in the source.
The second component of the result records which tiers were attempted,
in order. -/

inductive Tier
  | primary
  | direct
  | degraded
deriving DecidableEq

/-- Submission acknowledgment record.  Network acks are opaque; only
the fields the degraded tiers construct are modelled, all optional. -/
structure SubmissionResult where
  status : Option String
  message : Option String
  didUri : Option String
  timestamp : Option String
  method : Option String
  note : Option String
deriving DecidableEq

/-- The simulated acknowledgment literal from `submitToIONNode`
(3-anchor-bitcoin.js lines 280-286), stamped with the long-form DID URI
and the current time. -/
def simulatedResponse (longForm now : String) : SubmissionResult :=
  { status := some "pending"
    message := some "DID operation submitted successfully (simulated)"
    didUri := some longForm
    timestamp := some now
    method := some "simulated"
    note := none }

def submitToIONNode (tier1 tier2 : Except String SubmissionResult) (longForm now : String) :
    SubmissionResult × List Tier :=
  match tier1 with
  | Except.ok r => (r, [Tier.primary])
  | Except.error _ =>
    match tier2 with
    | Except.ok r => (r, [Tier.primary, Tier.direct])
    | Except.error _ =>
      (simulatedResponse longForm now, [Tier.primary, Tier.direct, Tier.degraded])

/-! ## 3-simple-anchor.js — `submitToION` (lines 110-162)

One network tier (the ion-tools `anchor` call); on failure the fallback
acknowledgment literal of lines 145-151. -/

/-- The fallback acknowledgment literal from `submitToION`
(3-simple-anchor.js lines 145-151). -/
def submittedLongformResponse (longForm now : String) : SubmissionResult :=
  { status := some "submitted_longform"
    message := some "DID is available as long-form, anchoring to be completed"
    didUri := some longForm
    timestamp := some now
    method := none
    note := some "Long-form DID is immediately resolvable" }

def submitToION (tier1 : Except String SubmissionResult) (longForm now : String) :
    SubmissionResult :=
  match tier1 with
  | Except.ok r => r
  | Except.error _ => submittedLongformResponse longForm now

/-- C3: `submitToIONNode` is an ordered fallback chain — tier 1 alone
when the anchor call succeeds; the direct POST attempted exactly when
tier 1 raised; the degraded tier exactly when both raised, in which case
the function still returns a (non-null) result whose `status` field is
set, and never raises. -/
theorem C3_fallback_chain :
    ∀ (r : SubmissionResult) (t2 : Except String SubmissionResult)
      (e1 e2 longForm now : String),
    submitToIONNode (Except.ok r) t2 longForm now = (r, [Tier.primary]) ∧
    submitToIONNode (Except.error e1) (Except.ok r) longForm now =
      (r, [Tier.primary, Tier.direct]) ∧
    submitToIONNode (Except.error e1) (Except.error e2) longForm now =
      (simulatedResponse longForm now, [Tier.primary, Tier.direct, Tier.degraded]) ∧
    (simulatedResponse longForm now).status = some "pending" := by
  intro r t2 e1 e2 longForm now
  exact ⟨rfl, rfl, rfl, rfl⟩

/-- C4 counterexample: when both network tiers raise, the degraded
result produced by `submitToIONNode` has `status` equal to `"pending"`
(with `"simulated"` only in its `method` field), so the claimed
disjunction `status ∈ set "simulated", "submitted_longform"` fails. -/
theorem C4_counterexample :
    ¬ (((submitToIONNode (Except.error "anchor failed") (Except.error "HTTP 500")
          "did:ion:xyz" "2024-01-01T00:00:00Z").1).status = some "simulated" ∨
       ((submitToIONNode (Except.error "anchor failed") (Except.error "HTTP 500")
          "did:ion:xyz" "2024-01-01T00:00:00Z").1).status = some "submitted_longform") := by
  intro h
  cases h with
  | inl h => exact absurd h (by decide)
  | inr h => exact absurd h (by decide)

/-- C4 (amended): the degraded tier of `submitToIONNode` produces the
record with `status = "pending"` and `method = "simulated"`, while the
fallback of `submitToION` in 3-simple-anchor.js produces
`status = "submitted_longform"`; in both cases the record is stamped
with the long-form DID URI (`didUri`) and the current time
(`timestamp`). -/
theorem C4_degraded_status_stamp : ∀ e1 e2 longForm now : String,
    ((submitToIONNode (Except.error e1) (Except.error e2) longForm now).1 =
      simulatedResponse longForm now) ∧
    (simulatedResponse longForm now).status = some "pending" ∧
    (simulatedResponse longForm now).method = some "simulated" ∧
    (simulatedResponse longForm now).didUri = some longForm ∧
    (simulatedResponse longForm now).timestamp = some now ∧
    (submitToION (Except.error e1) longForm now).status = some "submitted_longform" ∧
    (submitToION (Except.error e1) longForm now).didUri = some longForm ∧
    (submitToION (Except.error e1) longForm now).timestamp = some now := by
  intro e1 e2 longForm now
  exact ⟨rfl, rfl, rfl, rfl, rfl, rfl, rfl, rfl⟩

/-! ## 3-anchor-bitcoin.js — `waitForConfirmation` (lines 383-456)

The poller loops `while (!confirmed && attempts < maxAttempts)` with
`maxAttempts = floor(10 minutes / 30 seconds)`.  Each tick queries the
transaction status (injected oracle `responses`, indexed by the number
of queries already issued, `Except.error` standing for a rejected
call).  Inside the tick the source first merges an arriving `txHash`
into the tracked record under the guard
`if (txStatus.txHash && txStatus.txHash !== this.bitcoinTransaction.txHash)`,
then on `COMPLETED` replaces the tracked record wholesale and breaks;
on `FAILED`/`REJECTED` it throws — but that throw sits inside the same
`try` whose `catch (statusError)` only logs, so it is swallowed and the
loop continues (the `txHash` merge, a mutation, has already happened).
The outer `catch` (which records `errors.confirmation` and returns
`false`) is reachable only from the missing-transaction guard before
the loop.  The model returns
(confirmed, tracked record, queries issued, recorded error). -/

structure TxRecord where
  id : String
  status : String
  txHash : Option String
deriving DecidableEq

/-- JavaScript truthiness of `txStatus.txHash`. -/
def truthyHash : Option String → Bool
  | none => false
  | some s => s != ""

/-- The guarded mid-poll merge of an observed `txHash` into the tracked
record (lines 418-422). -/
def mergeTxHash (tracked txStatus : TxRecord) : TxRecord :=
  if truthyHash txStatus.txHash ∧ txStatus.txHash ≠ tracked.txHash then
    { tracked with txHash := txStatus.txHash }
  else tracked

/-- One polling tick: the status query plus the inner `try/catch`
(lines 408-435).  Returns the updated tracked record and whether the
tick confirmed. -/
def checkOnce (tracked : TxRecord) (resp : Except String TxRecord) : TxRecord × Bool :=
  match resp with
  | Except.error _ => (tracked, false)
  | Except.ok txStatus =>
    let tracked' := mergeTxHash tracked txStatus
    if txStatus.status = "COMPLETED" then (txStatus, true)
    else (tracked', false)

/-- Embeds `Math.floor(maxWaitTime / checkInterval)` with
`maxWaitTime = 10 * 60 * 1000` and `checkInterval = 30 * 1000`. -/
def maxAttempts : Nat := (10 * 60 * 1000) / (30 * 1000)

def pollAux (responses : Nat → Except String TxRecord) :
    Nat → Nat → TxRecord → Bool × TxRecord × Nat
  | 0, issued, tracked => (false, tracked, issued)
  | fuel + 1, issued, tracked =>
    let r := checkOnce tracked (responses issued)
    if r.2 then (true, r.1, issued + 1)
    else pollAux responses fuel (issued + 1) r.1

def waitForConfirmation (responses : Nat → Except String TxRecord)
    (bitcoinTransaction : Option TxRecord) :
    Bool × Option TxRecord × Nat × Option String :=
  match bitcoinTransaction with
  | none => (false, none, 0, some "No Bitcoin transaction to monitor")
  | some tracked =>
    let r := pollAux responses maxAttempts 0 tracked
    (r.1, some r.2.1, r.2.2, none)

/-- Freshly created transaction record, as tracked when polling
starts. -/
def tx0 : TxRecord := { id := "tx-1", status := "SUBMITTED", txHash := none }

def pendRec : TxRecord := { id := "tx-1", status := "PENDING", txHash := none }

def complRec : TxRecord := { id := "tx-1", status := "COMPLETED", txHash := some "hash1" }

def failedRec : TxRecord := { id := "tx-1", status := "FAILED", txHash := none }

/-- Status oracle observing PENDING, PENDING, COMPLETED. -/
def seqPPC : Nat → Except String TxRecord :=
  fun n => if n = 2 then Except.ok complRec else Except.ok pendRec

/-- Status oracle observing PENDING on every query. -/
def allPendingSeq : Nat → Except String TxRecord :=
  fun _ => Except.ok pendRec

theorem pollAux_issued_le (responses : Nat → Except String TxRecord) :
    ∀ fuel issued tracked, (pollAux responses fuel issued tracked).2.2 ≤ issued + fuel := by
  intro fuel
  induction fuel with
  | zero => intro issued tracked; simp [pollAux]
  | succ n ih =>
    intro issued tracked
    simp only [pollAux]
    split
    · simp
    · have := ih (issued + 1) (checkOnce tracked (responses issued)).1
      omega

/-- C6: the poller issues at most `floor(10 min / 30 s) = 20` status
queries; on the sequence PENDING, PENDING, COMPLETED it stops at the
third query confirmed (returning `true`); and when every query reports
PENDING it exhausts the 20-query budget and returns `false` with no
error recorded in the per-run collection (the run then proceeds to the
save/env stages rather than aborting). -/
theorem C6_poller_budget :
    maxAttempts = 20 ∧
    (∀ (responses : Nat → Except String TxRecord) (tracked : TxRecord),
      (waitForConfirmation responses (some tracked)).2.2.1 ≤ 20) ∧
    waitForConfirmation seqPPC (some tx0) = (true, some complRec, 3, none) ∧
    waitForConfirmation allPendingSeq (some tx0) = (false, some tx0, 20, none) := by
  refine ⟨rfl, ?_, rfl, rfl⟩
  intro responses tracked
  have := pollAux_issued_le responses maxAttempts 0 tracked
  simpa [waitForConfirmation] using this

/-- C5 evaluation at the failing input: with the very first status query
reporting FAILED (and every later one too), the poller does not stop —
its own `throw` is caught by the inner `catch (statusError)` and treated
as a transient status-check failure, so all 20 budgeted queries are
issued, the function returns `false` via the timeout path, and no
`errors.confirmation` entry is recorded.  The claim (and the spec's
Failed terminal state) says no further query may follow a FAILED
observation. -/
theorem C5_failed_swallowed :
    checkOnce tx0 (Except.ok failedRec) = (tx0, false) ∧
    waitForConfirmation (fun _ => Except.ok failedRec) (some tx0) =
      (false, some tx0, 20, none) := by
  exact ⟨rfl, rfl⟩

/-- Mid-poll record carrying a transaction hash. -/
def pendHashRec : TxRecord := { id := "tx-1", status := "PENDING", txHash := some "abc123" }

/-- COMPLETED response that carries no transaction hash. -/
def complNoHashRec : TxRecord := { id := "tx-1", status := "COMPLETED", txHash := none }

/-- Status oracle observing PENDING with a hash, then COMPLETED without
one. -/
def seqHashThenCompl : Nat → Except String TxRecord :=
  fun n => if n = 0 then Except.ok pendHashRec else Except.ok complNoHashRec

/-- C7 counterexample: tick 1 observes a non-empty `txHash` and merges
it into the tracked record, but the COMPLETED tick replaces the tracked
record wholesale (`this.bitcoinTransaction = txStatus`), and when that
response carries no hash the previously observed non-empty hash is lost
— the final tracked record for the same transaction id has an absent
`txHash`. -/
theorem C7_counterexample :
    (checkOnce tx0 (Except.ok pendHashRec)).1.txHash = some "abc123" ∧
    waitForConfirmation seqHashThenCompl (some tx0) =
      (true, some complNoHashRec, 2, none) ∧
    complNoHashRec.txHash = none ∧
    complNoHashRec.id = tx0.id := by
  exact ⟨rfl, rfl, rfl, rfl⟩

/-- C7 (amended): on every tick that does not observe COMPLETED (a
failed query, or any status other than COMPLETED — FAILED and REJECTED
included), a previously observed non-empty `txHash` is never replaced
by an empty or absent one: the merge runs only when the incoming hash
is truthy.  Only the COMPLETED tick, which replaces the tracked record
wholesale, can drop it. -/
theorem C7_merge_preserves :
    ∀ (tracked : TxRecord) (resp : Except String TxRecord),
    (∀ r, resp = Except.ok r → r.status ≠ "COMPLETED") →
    truthyHash tracked.txHash = true →
    truthyHash (checkOnce tracked resp).1.txHash = true := by
  intro tracked resp hnc htr
  match resp with
  | Except.error e => simpa [checkOnce] using htr
  | Except.ok txStatus =>
    have hst : txStatus.status ≠ "COMPLETED" := hnc txStatus rfl
    simp only [checkOnce, if_neg hst]
    unfold mergeTxHash
    split
    · next h => simpa using h.1
    · simpa using htr

/-- Witness for `C7_merge_preserves`: a PENDING response without a hash
leaves the tracked non-empty hash in place. -/
theorem C7_merge_preserves_witness :
    truthyHash (checkOnce pendHashRec (Except.ok pendRec)).1.txHash = true := by
  refine C7_merge_preserves pendHashRec (Except.ok pendRec) ?_ (by decide)
  intro r h
  cases h
  decide

/-! ## 3-anchor-bitcoin.js — `createBitcoinTransaction` (lines 301-381)
and `createHash` (lines 557-568)

The source computes `const ionDataHash = this.createHash(JSON.stringify(this.createRequest));`
(`createHash` wraps the injected SHA-256 digest capability; the call is
not awaited, so the value is a promise) and then only interpolates it
into a console line.  The Fireblocks `transactionRequest` object built
afterwards is embedded field by field; note that neither its `note` nor
its `extraParameters.note` mentions the digest.  `Date.now()` and the
digest output are injected. -/

structure TransactionRequest where
  assetId : List Char
  sourceType : List Char
  sourceId : List Char
  destType : List Char
  destAddress : List Char
  destTag : List Char
  amount : List Char
  note : List Char
  externalTxId : List Char
  extraParametersNote : List Char
deriving DecidableEq

/-- The `transactionRequest` literal of lines 324-344.
`shortForm.substring(0, 50)` is `List.take 50`. -/
def buildTransactionRequest (investorId shortForm btcAddress vaultAccountId nowMs : List Char) :
    TransactionRequest :=
  { assetId := "BTC_TEST".toList
    sourceType := "VAULT_ACCOUNT".toList
    sourceId := vaultAccountId
    destType := "ONE_TIME_ADDRESS".toList
    destAddress := btcAddress
    destTag := []
    amount := "0.00001".toList
    note := "ION DID Anchoring for ".toList ++ investorId
    externalTxId := "ion-anchor-".toList ++ nowMs
    extraParametersNote := "ION DID: ".toList ++ shortForm.take 50 ++ "...".toList }

/-- A representative SHA-256 hex digest (64 hex characters), standing
for the computed `ionDataHash`. -/
def sampleDigest : List Char := List.replicate 64 'a'

/-- C9 counterexample: at a concrete create request the computed digest
(a 64-hex-character string) occurs neither in the request's `note` nor
in its `extraParameters.note`; the digest is only interpolated into a
console line (and, unawaited, even that prints a promise, not the
hash). -/
theorem C9_counterexample :
    containsSub sampleDigest
      ((buildTransactionRequest "investor-001".toList "did:ion:EiTest".toList
        "tb1qtest".toList "23".toList "1700000000000".toList).note) = false ∧
    containsSub sampleDigest
      ((buildTransactionRequest "investor-001".toList "did:ion:EiTest".toList
        "tb1qtest".toList "23".toList "1700000000000".toList).extraParametersNote) = false := by
  exact ⟨by decide, by decide⟩

/-- C9 (amended): the transaction request's metadata fields are built
from the investor id and the truncated short-form DID only — `note` is
exactly `"ION DID Anchoring for " ++ investorId` and
`extraParameters.note` is exactly
`"ION DID: " ++ shortForm.take 50 ++ "..."` — independent of the
computed digest, which is used solely in console output. -/
theorem C9_note_contents :
    ∀ investorId shortForm btcAddress vaultAccountId nowMs : List Char,
    (buildTransactionRequest investorId shortForm btcAddress vaultAccountId nowMs).note =
      "ION DID Anchoring for ".toList ++ investorId ∧
    (buildTransactionRequest investorId shortForm btcAddress vaultAccountId
        nowMs).extraParametersNote =
      "ION DID: ".toList ++ shortForm.take 50 ++ "...".toList ∧
    (buildTransactionRequest investorId shortForm btcAddress vaultAccountId nowMs).amount =
      "0.00001".toList ∧
    (buildTransactionRequest investorId shortForm btcAddress vaultAccountId nowMs).assetId =
      "BTC_TEST".toList := by
  intro investorId shortForm btcAddress vaultAccountId nowMs
  exact ⟨rfl, rfl, rfl, rfl⟩

/-! ## 3-anchor-bitcoin.js — `loadDIDData` (lines 160-215) and
2-create-did.js — `saveDIDData` (lines 239-342)

`saveDIDData` writes `did-$investorId-$timestamp.json` (plus a
`did-keys-...` and a `did-public-...` file).  `loadDIDData` lists the
data directory, keeps the files that start with `did-$investorId`, end
with `.json` and contain neither "keys" nor "public", then picks
`files.sort().reverse()[0]` — the lexicographically greatest name under
JavaScript's default code-unit comparison — and parses that file.  The
comparator is `lexLt`; `sort()` is modelled as an insertion sort under
it; the directory is an association list of file name to parsed
payload. -/

/-- JavaScript's default string comparison `a < b` (code-unit
lexicographic). -/
def lexLt : List Char → List Char → Bool
  | _, [] => false
  | [], _ :: _ => true
  | a :: as, b :: bs => if a < b then true else if b < a then false else lexLt as bs

theorem lexLt_cons (a b : Char) (as bs : List Char) :
    lexLt (a :: as) (b :: bs) =
      if a < b then true else if b < a then false else lexLt as bs := rfl

theorem lexLt_nil_right : ∀ l : List Char, lexLt l [] = false
  | [] => rfl
  | _ :: _ => rfl

theorem lexLt_irrefl : ∀ l : List Char, lexLt l l = false
  | [] => rfl
  | c :: t => by
    rw [lexLt_cons, if_neg (lt_irrefl c), if_neg (lt_irrefl c)]
    exact lexLt_irrefl t

theorem lexLt_asymm : ∀ a b : List Char, lexLt a b = true → lexLt b a = false := by
  intro a
  induction a with
  | nil =>
    intro b _
    exact lexLt_nil_right b
  | cons a0 as ih =>
    intro b hab
    cases b with
    | nil => rw [lexLt_nil_right] at hab; cases hab
    | cons b0 bs =>
      rw [lexLt_cons] at hab
      rw [lexLt_cons]
      rcases lt_trichotomy a0 b0 with h1 | h1 | h1
      · rw [if_neg (lt_asymm h1), if_pos h1]
      · subst h1
        rw [if_neg (lt_irrefl a0), if_neg (lt_irrefl a0)] at hab ⊢
        exact ih bs hab
      · rw [if_neg (lt_asymm h1), if_pos h1] at hab; cases hab

theorem lexLt_trans :
    ∀ a b c : List Char, lexLt a b = true → lexLt b c = true → lexLt a c = true := by
  intro a
  induction a with
  | nil =>
    intro b c hab hbc
    cases c with
    | nil => rw [lexLt_nil_right] at hbc; cases hbc
    | cons c0 cs => rfl
  | cons a0 as ih =>
    intro b c hab hbc
    cases b with
    | nil => rw [lexLt_nil_right] at hab; cases hab
    | cons b0 bs =>
      cases c with
      | nil => rw [lexLt_nil_right] at hbc; cases hbc
      | cons c0 cs =>
        rw [lexLt_cons] at hab hbc ⊢
        rcases lt_trichotomy a0 b0 with h1 | h1 | h1
        · rcases lt_trichotomy b0 c0 with h2 | h2 | h2
          · rw [if_pos (lt_trans h1 h2)]
          · subst h2; rw [if_pos h1]
          · rw [if_neg (lt_asymm h2), if_pos h2] at hbc; cases hbc
        · subst h1
          rw [if_neg (lt_irrefl a0), if_neg (lt_irrefl a0)] at hab
          rcases lt_trichotomy a0 c0 with h2 | h2 | h2
          · rw [if_pos h2]
          · subst h2
            rw [if_neg (lt_irrefl a0), if_neg (lt_irrefl a0)] at hbc ⊢
            exact ih bs cs hab hbc
          · rw [if_neg (lt_asymm h2), if_pos h2] at hbc; cases hbc
        · rw [if_neg (lt_asymm h1), if_pos h1] at hab; cases hab

theorem lexLt_append_same : ∀ p a b : List Char, lexLt (p ++ a) (p ++ b) = lexLt a b
  | [], _, _ => rfl
  | c :: p, a, b => by
    show lexLt (c :: (p ++ a)) (c :: (p ++ b)) = lexLt a b
    rw [lexLt_cons, if_neg (lt_irrefl c), if_neg (lt_irrefl c)]
    exact lexLt_append_same p a b

theorem lexLt_append_of_length_eq :
    ∀ a b s : List Char, a.length = b.length → lexLt (a ++ s) (b ++ s) = lexLt a b := by
  intro a
  induction a with
  | nil =>
    intro b s h
    cases b with
    | nil => exact (lexLt_irrefl s).trans (lexLt_nil_right []).symm
    | cons b0 bs => simp at h
  | cons a0 as ih =>
    intro b s h
    cases b with
    | nil => simp at h
    | cons b0 bs =>
      show lexLt (a0 :: (as ++ s)) (b0 :: (bs ++ s)) = lexLt (a0 :: as) (b0 :: bs)
      rw [lexLt_cons, lexLt_cons]
      rcases lt_trichotomy a0 b0 with h1 | h1 | h1
      · rw [if_pos h1, if_pos h1]
      · subst h1
        rw [if_neg (lt_irrefl a0), if_neg (lt_irrefl a0), if_neg (lt_irrefl a0),
          if_neg (lt_irrefl a0)]
        exact ih bs s (by simpa using h)
      · rw [if_neg (lt_asymm h1), if_neg (lt_asymm h1), if_pos h1, if_pos h1]

/-- Ascending insertion under the JavaScript comparator; models the
result of `Array.prototype.sort()`. -/
def sortLexInsert (x : List Char) : List (List Char) → List (List Char)
  | [] => [x]
  | y :: ys => if lexLt x y then x :: y :: ys else y :: sortLexInsert x ys

/-- The sorted array produced by `files.sort()`. -/
def sortLex : List (List Char) → List (List Char)
  | [] => []
  | x :: xs => sortLexInsert x (sortLex xs)

theorem mem_sortLexInsert :
    ∀ (x y : List Char) (l : List (List Char)),
    y ∈ sortLexInsert x l ↔ y = x ∨ y ∈ l := by
  intro x y l
  induction l with
  | nil => simp [sortLexInsert]
  | cons z zs ih =>
    by_cases h : lexLt x z = true
    · simp [sortLexInsert, h]
    · simp only [sortLexInsert, if_neg h, List.mem_cons, ih]
      tauto

theorem mem_sortLex : ∀ (l : List (List Char)) (y : List Char), y ∈ sortLex l ↔ y ∈ l := by
  intro l y
  induction l with
  | nil => simp [sortLex]
  | cons x xs ih =>
    simp only [sortLex, mem_sortLexInsert, ih, List.mem_cons]

/-- Ascending order between adjacent sorted entries: `a` no greater
than `b`. -/
def fileLe (a b : List Char) : Prop := lexLt b a = false

theorem pairwise_sortLexInsert :
    ∀ (x : List Char) (l : List (List Char)),
    l.Pairwise fileLe → (sortLexInsert x l).Pairwise fileLe := by
  intro x l
  induction l with
  | nil => intro _; simp [sortLexInsert, fileLe]
  | cons z zs ih =>
    intro hp
    rcases List.pairwise_cons.mp hp with ⟨hz, hzs⟩
    by_cases h : lexLt x z = true
    · simp only [sortLexInsert, if_pos h]
      refine List.pairwise_cons.mpr ⟨?_, hp⟩
      intro b hb
      rcases List.mem_cons.mp hb with rfl | hb2
      · exact lexLt_asymm x b h
      · cases hcase : lexLt b x with
        | false => exact hcase
        | true =>
          have hbz : lexLt b z = true := lexLt_trans b x z hcase h
          have := hz b hb2
          rw [fileLe, hbz] at this
          cases this
    · simp only [sortLexInsert, if_neg h]
      refine List.pairwise_cons.mpr ⟨?_, ih hzs⟩
      intro b hb
      rcases (mem_sortLexInsert x b zs).mp hb with rfl | hb2
      · simp only [Bool.not_eq_true] at h
        exact h
      · exact hz b hb2

theorem pairwise_sortLex : ∀ l : List (List Char), (sortLex l).Pairwise fileLe := by
  intro l
  induction l with
  | nil => simp [sortLex]
  | cons x xs ih => exact pairwise_sortLexInsert x (sortLex xs) ih

theorem mem_of_getLast?_eq :
    ∀ (l : List (List Char)) (m : List Char), l.getLast? = some m → m ∈ l := by
  intro l
  induction l with
  | nil => intro m hm; cases hm
  | cons a t ih =>
    intro m hm
    cases t with
    | nil =>
      have : m = a := by simpa using hm.symm
      subst this
      exact List.mem_cons_self _ _
    | cons b s =>
      have hm2 : (b :: s).getLast? = some m := by
        simpa [List.getLast?_cons_cons] using hm
      exact List.mem_cons_of_mem _ (ih m hm2)

theorem getLast?_max_of_pairwise :
    ∀ (l : List (List Char)) (m : List Char),
    l.Pairwise fileLe → l.getLast? = some m → ∀ y ∈ l, lexLt m y = false := by
  intro l
  induction l with
  | nil => intro m _ hm; cases hm
  | cons a t ih =>
    intro m hp hm y hy
    rcases List.pairwise_cons.mp hp with ⟨ha, ht⟩
    cases t with
    | nil =>
      have hma : m = a := by simpa using hm.symm
      subst hma
      rcases List.mem_cons.mp hy with rfl | h2
      · exact lexLt_irrefl y
      · cases h2
    | cons b s =>
      have hm2 : (b :: s).getLast? = some m := by
        simpa [List.getLast?_cons_cons] using hm
      rcases List.mem_cons.mp hy with rfl | h2
      · exact ha m (mem_of_getLast?_eq _ m hm2)
      · exact ih m ht hm2 y h2

/-- The file predicate of `loadDIDData` (lines 175-180). -/
def didDataFileFilter (investorId : List Char) (file : List Char) : Bool :=
  (("did-".toList ++ investorId).isPrefixOf file) &&
  (".json".toList.isSuffixOf file) &&
  !(containsSub "keys".toList file) &&
  !(containsSub "public".toList file)

/-- Embeds `didDataFiles.sort().reverse()[0]` applied to the filtered
directory listing (lines 174-187). -/
def loadDIDDataSelect (investorId : List Char) (files : List (List Char)) :
    Option (List Char) :=
  (sortLex (files.filter (didDataFileFilter investorId))).reverse.head?

/-- `fs.readFileSync` on the selected name, with the data directory as
an association list. -/
def lookupFile {α : Type} (f : List Char) : List (List Char × α) → Option α
  | [] => none
  | (k, v) :: rest => if k = f then some v else lookupFile f rest

/-- `loadDIDData`: select the latest matching artifact and return its
payload; `none` models the thrown "No DID data files found" error. -/
def loadDIDData {α : Type} (investorId : List Char) (store : List (List Char × α)) :
    Option α :=
  match loadDIDDataSelect investorId (store.map Prod.fst) with
  | none => none
  | some f => lookupFile f store

/-- The data-file name written by `saveDIDData`
(2-create-did.js line 298): `did-$investorId-$timestamp.json`. -/
def didDataFileName (investorId timestamp : List Char) : List Char :=
  ("did-".toList ++ investorId ++ "-".toList) ++ (timestamp ++ ".json".toList)

theorem loadDIDDataSelect_max :
    ∀ (investorId : List Char) (files : List (List Char)) (m : List Char),
    loadDIDDataSelect investorId files = some m →
    m ∈ files.filter (didDataFileFilter investorId) ∧
    ∀ y ∈ files.filter (didDataFileFilter investorId), lexLt m y = false := by
  intro inv files m h
  unfold loadDIDDataSelect at h
  rw [List.head?_reverse] at h
  have hp := pairwise_sortLex (files.filter (didDataFileFilter inv))
  have hmem := mem_of_getLast?_eq _ m h
  exact ⟨(mem_sortLex _ m).mp hmem,
    fun y hy => getLast?_max_of_pairwise _ m hp h y ((mem_sortLex _ y).mpr hy)⟩

theorem lexLt_didDataFileName (investorId ts1 ts2 : List Char)
    (hlen : ts1.length = ts2.length) :
    lexLt (didDataFileName investorId ts1) (didDataFileName investorId ts2) =
      lexLt ts1 ts2 := by
  unfold didDataFileName
  rw [lexLt_append_same, lexLt_append_of_length_eq _ _ _ hlen]

/-- C8 (amended): whenever `loadDIDData`'s selection succeeds it picks a
matching file no other matching file exceeds lexicographically; and —
for saves whose file names actually pass the loader's filter (in
particular, an investor id free of "keys"/"public") and whose embedded
timestamps have equal length, as `toISOString`-derived stamps do —
after two saves for the same investor the payload of the
later-timestamped save is returned, never the earlier. -/
theorem C8_loadLatest :
    (∀ (investorId : List Char) (files : List (List Char)) (m : List Char),
      loadDIDDataSelect investorId files = some m →
      m ∈ files.filter (didDataFileFilter investorId) ∧
      ∀ y ∈ files.filter (didDataFileFilter investorId), lexLt m y = false) ∧
    (∀ (α : Type) (investorId ts1 ts2 : List Char) (p1 p2 : α),
      ts1.length = ts2.length →
      lexLt ts1 ts2 = true →
      didDataFileFilter investorId (didDataFileName investorId ts1) = true →
      didDataFileFilter investorId (didDataFileName investorId ts2) = true →
      loadDIDData investorId
        [(didDataFileName investorId ts1, p1), (didDataFileName investorId ts2, p2)] =
        some p2) := by
  refine ⟨loadDIDDataSelect_max, ?_⟩
  intro α inv ts1 ts2 p1 p2 hlen hlt h1 h2
  have hflt : lexLt (didDataFileName inv ts1) (didDataFileName inv ts2) = true := by
    rw [lexLt_didDataFileName inv ts1 ts2 hlen]; exact hlt
  have hne : didDataFileName inv ts1 ≠ didDataFileName inv ts2 := by
    intro he
    rw [he, lexLt_irrefl] at hflt
    cases hflt
  unfold loadDIDData loadDIDDataSelect
  simp only [List.map_cons, List.map_nil, List.filter_cons, List.filter_nil, h1, h2,
    if_pos trivial, if_true]
  simp only [sortLex, sortLexInsert, if_pos hflt]
  simp only [List.reverse_cons, List.reverse_nil, List.nil_append, List.cons_append,
    List.head?_cons]
  simp [lookupFile, if_neg hne]

/-- Witness for `C8_loadLatest`: two concrete saves for investor
`inv-1` with ISO-derived timestamps one day apart — the later payload is
returned. -/
theorem C8_loadLatest_witness :
    loadDIDData ("inv-1".toList)
      [(didDataFileName ("inv-1".toList) ("2024-01-01T00-00-00-000Z".toList), (1 : Nat)),
       (didDataFileName ("inv-1".toList) ("2024-01-02T00-00-00-000Z".toList), (2 : Nat))] =
      some 2 :=
  C8_loadLatest.2 Nat ("inv-1".toList) ("2024-01-01T00-00-00-000Z".toList)
    ("2024-01-02T00-00-00-000Z".toList) 1 2 (by decide) (by decide) (by decide) (by decide)

/-- C8 counterexample: the claim quantifies over every investor id, but
for an investor id that itself contains "keys" the loader's own filter
(`!file.includes('keys')`) excludes every data file of that investor, so
after two saves nothing is returned at all — not the later payload. -/
theorem C8_counterexample :
    loadDIDData ("keys".toList)
      [(didDataFileName ("keys".toList) ("2024-01-01T00-00-00-000Z".toList), (1 : Nat)),
       (didDataFileName ("keys".toList) ("2024-01-02T00-00-00-000Z".toList), (2 : Nat))] =
      none := by
  decide
